import Mathlib

/-!
# Verification of the market-data acquisition pipeline

Shallow embedding of `src/src/main/python/RealTimeMarketDataLoader.py`.

Modelling conventions:
* Instants (`datetime` values) are modelled at day granularity as integers
  (`Int`), the number of days since an arbitrary epoch.  The only time
  arithmetic the source performs is with `timedelta(days = n)`, which becomes
  integer addition/subtraction.
* The external market-data provider (`stock_historical_data_client
  .get_stock_bars`) is a parameter of type `Provider`: a function from the
  constructed request to either an error (any exception raised inside the
  `try` block: transport, authentication, decoding) or a list of raw rows.
* Effects (`get_stock_bars`, `print`, `time.sleep`, `os.makedirs`,
  `DataFrame.to_csv`) are recorded in an explicit event trace.
* The filesystem (`os.makedirs` / `to_csv`) is a parameter of type `Fs` whose
  operations may raise; an uncaught raise is modelled by the `Option String`
  component of the result of `process_symbols_in_batches`.
* `datetime.now(...)` is modelled by a `clock : Nat → Int` giving the value of
  "now" (at day granularity) when the `i`-th symbol of the overall list is
  processed.
-/

/-- The time-frame unit enumeration of the provider's request type
(`alpaca.data.timeframe.TimeFrameUnit`). -/
inductive TimeFrameUnit where
  | Minute
  | Hour
  | Day
  | Week
  | Month
deriving DecidableEq, Repr

/-- `TimeFrame(amount, unit)` of the provider's request interface. -/
structure TimeFrame where
  amount : Nat
  unit : TimeFrameUnit
deriving DecidableEq, Repr

/-- Modelled from the spec: the market-data provider's request type
(spec §6) accepts `{symbol, timeframe = 1 calendar day, start, end,
row_limit}`.  The source (lines 48–54) constructs it with the keyword
arguments `symbol_or_symbols`, `timeframe`, `start`, `end_date`, `limit`;
`end_date` is not among the accepted fields of `StockBarsRequest`, and the
provider's request model silently drops unknown keyword arguments, so the
`end` bound of the constructed request remains unset (`none`). -/
structure StockBarsRequest where
  symbol_or_symbols : String
  timeframe : TimeFrame
  start : Option Int
  «end» : Option Int
  limit : Option Nat
deriving DecidableEq, Repr

/-- The request constructed by `fetch_historical_data_chunk` (lines 48–54):
`StockBarsRequest(symbol_or_symbols=symbol, timeframe=TimeFrame(amount=1,
unit=TimeFrameUnit.Day), start=start_date, end_date=end_date, limit=1000)`.
The keyword `end_date` does not name a field of the request, so the request's
`end` bound stays `none`; the value `end_date` passed by the caller is
dropped. -/
def mkStockBarsRequest (symbol : String) (start_date end_date : Int) :
    StockBarsRequest :=
  { symbol_or_symbols := symbol
    timeframe := { amount := 1, unit := TimeFrameUnit.Day }
    start := some start_date
    «end» := none
    limit := some 1000 }

/-- A raw row of the provider's response (after `.df` / `reset_index()`):
at least `{timestamp, symbol, open, high, low, close, volume}` plus
provider-specific extras (`trade_count`, `vwap`) that normalization drops.
Prices are modelled as integers (no claim involves price arithmetic). -/
structure RawBar where
  timestamp : Int
  symbol : String
  «open» : Int
  high : Int
  low : Int
  close : Int
  volume : Int
  trade_count : Int
  vwap : Int
deriving DecidableEq, Repr

/-- A normalized row, produced by lines 61–73: `Date` taken from the
timestamp's calendar date (identity at day granularity), provider field
names renamed to `Symbol, Open, High, Low, Close, Volume`, extras dropped. -/
structure Bar where
  date : Int
  symbol : String
  «open» : Int
  high : Int
  low : Int
  close : Int
  volume : Int
deriving DecidableEq, Repr

/-- Normalization of one provider row (lines 61–73): `df['Date'] =
pd.to_datetime(df['timestamp']).dt.date`, the renames, and the selection of
only the canonical columns (dropping `trade_count`, `vwap`). -/
def normalizeRow (r : RawBar) : Bar :=
  { date := r.timestamp
    symbol := r.symbol
    «open» := r.«open»
    high := r.high
    low := r.low
    close := r.close
    volume := r.volume }

/-- A cell value of the persisted CSV. -/
inductive CsvValue where
  | vdate (d : Int)
  | vstr (s : String)
  | vnum (n : Int)
deriving DecidableEq, Repr

/-- The rendering of one row into labelled CSV cells, in the fixed column
order selected at line 73: `df[['Date', 'Symbol', 'Open', 'High', 'Low',
'Close', 'Volume']]`. -/
def bar_cells (b : Bar) : List (String × CsvValue) :=
  [("Date", CsvValue.vdate b.date),
   ("Symbol", CsvValue.vstr b.symbol),
   ("Open", CsvValue.vnum b.«open»),
   ("High", CsvValue.vnum b.high),
   ("Low", CsvValue.vnum b.low),
   ("Close", CsvValue.vnum b.close),
   ("Volume", CsvValue.vnum b.volume)]

/-- The external provider: maps the issued request to either an error (an
exception raised inside the `try` block of `fetch_historical_data_chunk`)
or the response rows. -/
def Provider : Type := StockBarsRequest → Except String (List RawBar)

/-- One observable effect of a run. -/
inductive Event where
  | request (req : StockBarsRequest)
  | print (msg : String)
  | sleep (seconds : Nat)
  | makedirs (dir : String)
  | toCsv (path : String) (rows : List Bar)
deriving DecidableEq, Repr

/-- The chunk fetcher (lines 45–78): builds the request, calls the provider;
on any raise, prints a diagnostic and returns `None`; on an empty response
returns `None`; otherwise returns the normalized rows.  The first component
is the returned value, the second the emitted effect trace. -/
def fetch_historical_data_chunk (provider : Provider) (symbol : String)
    (start_date end_date : Int) : Option (List Bar) × List Event :=
  let req := mkStockBarsRequest symbol start_date end_date
  match provider req with
  | Except.error e =>
      (none, [Event.request req,
              Event.print ("Error fetching data chunk for " ++ symbol ++ ": " ++ e)])
  | Except.ok rows =>
      if rows.isEmpty then (none, [Event.request req])
      else (some (rows.map normalizeRow), [Event.request req])

/-- The window sequence generated by the chunking loop of
`fetch_historical_data` (lines 82–99): starting from `current_start =
start_date`, while `current_start < end_date` emit the window
`(current_start, min (current_start + 1000) end_date)` and advance
`current_start` to one day past the window's end.  The loop is made
structurally recursive with a fuel parameter; `(end_date - start_date).toNat`
units of fuel always suffice because every iteration advances
`current_start` by at least two days (`planWindows_go_congr`). -/
def planWindows_go : Nat → Int → Int → List (Int × Int)
  | 0, _, _ => []
  | fuel + 1, current_start, end_date =>
      if current_start < end_date then
        let chunk_end := min (current_start + 1000) end_date
        (current_start, chunk_end) :: planWindows_go fuel (chunk_end + 1) end_date
      else []

/-- The windows attempted by `fetch_historical_data` for `[start_date,
end_date]`. -/
def planWindows (start_date end_date : Int) : List (Int × Int) :=
  planWindows_go (end_date - start_date).toNat start_date end_date

theorem planWindows_go_congr :
    ∀ (fuel₁ fuel₂ : Nat) (cs ed : Int),
      (ed - cs).toNat ≤ fuel₁ → (ed - cs).toNat ≤ fuel₂ →
      planWindows_go fuel₁ cs ed = planWindows_go fuel₂ cs ed := by
  intro fuel₁
  induction fuel₁ with
  | zero =>
      intro fuel₂ cs ed h1 h2
      have hcs : ¬ cs < ed := by omega
      cases fuel₂ with
      | zero => rfl
      | succ n => simp [planWindows_go, hcs]
  | succ n ih =>
      intro fuel₂ cs ed h1 h2
      cases fuel₂ with
      | zero =>
          have hcs : ¬ cs < ed := by omega
          simp [planWindows_go, hcs]
      | succ m =>
          by_cases hcs : cs < ed
          · simp only [planWindows_go, if_pos hcs]
            have hrec : (ed - (min (cs + 1000) ed + 1)).toNat ≤ n ∧
                (ed - (min (cs + 1000) ed + 1)).toNat ≤ m := by
              constructor <;> omega
            rw [ih m _ ed hrec.1 hrec.2]
          · simp [planWindows_go, hcs]

/-- The body of the chunking loop of `fetch_historical_data` (lines 85–99),
with the same control flow as `planWindows_go`: per iteration, fetch the
chunk, keep it if it is neither `None` nor empty, sleep one second, advance.
Returns the accumulated list of chunk dataframes and the emitted trace. -/
def fetch_historical_data_go (provider : Provider) (symbol : String) :
    Nat → Int → Int → List (List Bar) × List Event
  | 0, _, _ => ([], [])
  | fuel + 1, current_start, end_date =>
      if current_start < end_date then
        let chunk_end := min (current_start + 1000) end_date
        let fetched := fetch_historical_data_chunk provider symbol current_start chunk_end
        let rest := fetch_historical_data_go provider symbol fuel (chunk_end + 1) end_date
        let kept := match fetched.1 with
          | some chunk_df => if chunk_df.isEmpty then [] else [chunk_df]
          | none => []
        (kept ++ rest.1, fetched.2 ++ [Event.sleep 1] ++ rest.2)
      else ([], [])

/-- `fetch_historical_data` (lines 80–104): runs the chunking loop, then
returns the concatenation of the accumulated chunks (`pd.concat`) when at
least one chunk was kept, `None` otherwise. -/
def fetch_historical_data (provider : Provider) (symbol : String)
    (start_date end_date : Int) : Option (List Bar) × List Event :=
  let r := fetch_historical_data_go provider symbol
    (end_date - start_date).toNat start_date end_date
  (if r.1.isEmpty then none else some r.1.flatten, r.2)

/-- The filesystem interface: `os.makedirs(dir, exist_ok=True)` and
`DataFrame.to_csv(path, index=False)`, either of which may raise. -/
structure Fs where
  makedirs : String → Except String Unit
  to_csv : String → List Bar → Except String Unit

/-- A filesystem on which every operation succeeds. -/
def okFs : Fs :=
  { makedirs := fun _ => Except.ok ()
    to_csv := fun _ _ => Except.ok () }

/-- A filesystem whose `os.makedirs` raises `msg`. -/
def mkdirFailFs (msg : String) : Fs :=
  { makedirs := fun _ => Except.error msg
    to_csv := fun _ _ => Except.ok () }

/-- A filesystem whose `DataFrame.to_csv` raises `msg`. -/
def csvFailFs (msg : String) : Fs :=
  { makedirs := fun _ => Except.ok ()
    to_csv := fun _ _ => Except.error msg }

/-- `datetime.now(ZoneInfo("America/New_York"))`, modelled at day
granularity: the value of "now" when the `i`-th symbol of the overall
symbol list is processed (line 114; "now" is re-evaluated fresh for every
symbol, so it may advance during a run). -/
def Clock : Type := Nat → Int

/-- `start_date.strftime('%Y-%m-%d')`, modelled at day granularity: a
rendering of the calendar day that is injective on days (distinct days
format to distinct strings). -/
def strftime_day (d : Int) : String := toString d

/-- The output directory name built at line 118:
`market_data_export_{start}_to_{end}`. -/
def output_dir_name (start_date end_date : Int) : String :=
  "market_data_export_" ++ strftime_day start_date ++ "_to_" ++ strftime_day end_date

/-- The output file path built at line 129: `{output_dir}/{symbol}_data.csv`. -/
def output_file_name (output_dir symbol : String) : String :=
  output_dir ++ "/" ++ symbol ++ "_data.csv"

/-- `df.sort_values('Date')` (line 126): sort the rows ascending by `Date`. -/
def sort_values_Date (df : List Bar) : List Bar :=
  List.insertionSort (fun a b => a.date ≤ b.date) df

/-- The per-symbol body of the inner loop of `process_symbols_in_batches`
(lines 112–134): re-evaluate "now", derive the 5-year range, create the
output directory, fetch, and — when data came back non-empty — sort it by
date and write the CSV.  A raise from `makedirs` or `to_csv` is uncaught:
it is returned as `some msg` together with the trace emitted up to the
raise. -/
def processSymbol (provider : Provider) (fs : Fs) (clock : Clock)
    (idx : Nat) (symbol : String) : List Event × Option String :=
  let end_date := clock idx
  let start_date := end_date - 5 * 365
  let output_dir := output_dir_name start_date end_date
  match fs.makedirs output_dir with
  | Except.error e => ([Event.makedirs output_dir], some e)
  | Except.ok _ =>
    let fetched := fetch_historical_data provider symbol start_date end_date
    let evs := Event.makedirs output_dir :: fetched.2
    match fetched.1 with
    | some df =>
        if df.isEmpty then (evs ++ [Event.sleep 1], none)
        else
          let sorted_df := sort_values_Date df
          let output_file := output_file_name output_dir symbol
          match fs.to_csv output_file sorted_df with
          | Except.error e => (evs ++ [Event.toCsv output_file sorted_df], some e)
          | Except.ok _ =>
              (evs ++ [Event.toCsv output_file sorted_df,
                       Event.print ("Saved data for " ++ symbol),
                       Event.sleep 1], none)
    | none => (evs ++ [Event.sleep 1], none)

/-- The inner `for symbol in batch` loop (lines 112–134): process each
symbol of the batch in order, stopping (with the raise propagating) at the
first uncaught filesystem exception.  `idx` is the position of the batch's
first symbol in the overall symbol list. -/
def processSymbols (provider : Provider) (fs : Fs) (clock : Clock) :
    Nat → List String → List Event × Option String
  | _, [] => ([], none)
  | idx, symbol :: rest =>
      match processSymbol provider fs clock idx symbol with
      | (evs, some e) => (evs, some e)
      | (evs, none) =>
          let r := processSymbols provider fs clock (idx + 1) rest
          (evs ++ r.1, r.2)

/-- The batch loop of `process_symbols_in_batches` (lines 108–134):
`for i in range(0, len(symbols), batch_size)` — print the batch header,
process the batch's symbols, continue with the rest.  Made structurally
recursive with fuel; `remaining.length` units of fuel suffice whenever
`batch_size ≥ 1`, because each step consumes `batch_size` symbols.
(For `batch_size = 0` Python's `range` would raise; the model simply runs
out of fuel after emitting headers, and no claim quantifies over that
case.) -/
def process_batches_go (provider : Provider) (fs : Fs) (clock : Clock)
    (total batch_size : Nat) :
    Nat → Nat → List String → List Event × Option String
  | _, _, [] => ([], none)
  | 0, _, _ => ([], none)
  | fuel + 1, i, remaining =>
      let batch := remaining.take batch_size
      let header := Event.print ("Processing batch " ++ toString (i / batch_size + 1)
        ++ " of " ++ toString ((total + batch_size - 1) / batch_size))
      match processSymbols provider fs clock i batch with
      | (evs, some e) => (header :: evs, some e)
      | (evs, none) =>
          let r := process_batches_go provider fs clock total batch_size fuel
            (i + batch_size) (remaining.drop batch_size)
          (header :: evs ++ r.1, r.2)

/-- `process_symbols_in_batches(symbols, batch_size=50)` (lines 106–134). -/
def process_symbols_in_batches (provider : Provider) (fs : Fs) (clock : Clock)
    (symbols : List String) (batch_size : Nat := 50) : List Event × Option String :=
  process_batches_go provider fs clock symbols.length batch_size
    symbols.length 0 symbols

/-- The `(path, rows)` pairs of the `to_csv` effects of a trace: what the
run persisted, and where. -/
def writesOf (t : List Event) : List (String × List Bar) :=
  t.filterMap fun e => match e with
    | Event.toCsv path rows => some (path, rows)
    | _ => none

/-- The directories passed to `os.makedirs` in a trace. -/
def makedirsOf (t : List Event) : List String :=
  t.filterMap fun e => match e with
    | Event.makedirs dir => some dir
    | _ => none

/-- The provider requests issued in a trace. -/
def requestsOf (t : List Event) : List StockBarsRequest :=
  t.filterMap fun e => match e with
    | Event.request req => some req
    | _ => none

/-- The number of `time.sleep` pacing delays in a trace. -/
def countSleeps (t : List Event) : Nat :=
  (t.filter fun e => match e with
    | Event.sleep _ => true
    | _ => false).length

/-- Adjacent-pair check that a row list is ascending by `Date`. -/
def sortedByDateB : List Bar → Bool
  | [] => true
  | [_] => true
  | a :: b :: t => decide (a.date ≤ b.date) && sortedByDateB (b :: t)

/-- Check that a row renders to CSV cells labelled, in order,
`Date, Symbol, Open, High, Low, Close, Volume`. -/
def colsOkB (b : Bar) : Bool :=
  decide ((bar_cells b).map Prod.fst
    = ["Date", "Symbol", "Open", "High", "Low", "Close", "Volume"])

/-! ## Lemmas about the window plan -/

theorem planWindows_go_nil (fuel : Nat) (cs ed : Int) (h : ¬ cs < ed) :
    planWindows_go fuel cs ed = [] := by
  cases fuel with
  | zero => rfl
  | succ n => simp [planWindows_go, h]

theorem planWindows_go_head_fst (fuel : Nat) (cs ed : Int) (w : Int × Int)
    (ws : List (Int × Int)) (h : planWindows_go fuel cs ed = w :: ws) :
    w.1 = cs := by
  cases fuel with
  | zero => simp [planWindows_go] at h
  | succ n =>
      by_cases hcs : cs < ed
      · simp only [planWindows_go, if_pos hcs] at h
        cases h
        rfl
      · simp [planWindows_go, hcs] at h

theorem planWindows_go_ne_nil (fuel : Nat) (cs ed : Int) (h : cs < ed) :
    planWindows_go (fuel + 1) cs ed ≠ [] := by
  simp [planWindows_go, h]

theorem planWindows_nil_iff (s e : Int) : planWindows s e = [] ↔ e ≤ s := by
  constructor
  · intro h
    by_contra hlt
    push_neg at hlt
    have htn : (e - s).toNat = (e - s).toNat - 1 + 1 := by omega
    rw [planWindows, htn] at h
    exact planWindows_go_ne_nil _ s e hlt h
  · intro h
    exact planWindows_go_nil _ s e (by omega)

theorem planWindows_head_fst (s e : Int) (h : s < e) :
    (planWindows s e).head?.map Prod.fst = some s := by
  have htn : (e - s).toNat = (e - s).toNat - 1 + 1 := by omega
  rw [planWindows, htn]
  simp [planWindows_go, h]

theorem planWindows_go_length (fuel : Nat) :
    ∀ (cs ed : Int), (planWindows_go fuel cs ed).length ≤ fuel := by
  induction fuel with
  | zero => intro cs ed; simp [planWindows_go]
  | succ n ih =>
      intro cs ed
      by_cases hcs : cs < ed
      · simp only [planWindows_go, if_pos hcs, List.length_cons]
        exact Nat.succ_le_succ (ih _ ed)
      · simp [planWindows_go, hcs]

theorem planWindows_length (s e : Int) :
    (planWindows s e).length ≤ (e - s).toNat :=
  planWindows_go_length _ s e

theorem planWindows_go_spans (fuel : Nat) :
    ∀ (cs ed : Int),
      ((planWindows_go fuel cs ed).all fun w =>
        decide (w.1 ≤ w.2) && decide (w.2 - w.1 ≤ 1000)) = true := by
  induction fuel with
  | zero => intro cs ed; simp [planWindows_go]
  | succ n ih =>
      intro cs ed
      by_cases hcs : cs < ed
      · simp only [planWindows_go, if_pos hcs, List.all_cons, Bool.and_eq_true]
        refine ⟨⟨?_, ?_⟩, ih _ ed⟩
        · simp only [decide_eq_true_eq]; omega
        · simp only [decide_eq_true_eq]; omega
      · simp [planWindows_go, hcs]

theorem planWindows_spans (s e : Int) :
    ((planWindows s e).all fun w =>
      decide (w.1 ≤ w.2) && decide (w.2 - w.1 ≤ 1000)) = true :=
  planWindows_go_spans _ s e

theorem planWindows_go_adjacent (fuel : Nat) :
    ∀ (cs ed : Int),
      (((planWindows_go fuel cs ed).zip (planWindows_go fuel cs ed).tail).all
        fun ab => decide (ab.2.1 = ab.1.2 + 1) && decide (ab.1.1 + 1 ≤ ab.2.1)) = true := by
  induction fuel with
  | zero => intro cs ed; simp [planWindows_go]
  | succ n ih =>
      intro cs ed
      by_cases hcs : cs < ed
      · simp only [planWindows_go, if_pos hcs]
        match hrec : planWindows_go n (min (cs + 1000) ed + 1) ed with
        | [] => simp
        | w :: ws =>
            have hw : w.1 = min (cs + 1000) ed + 1 :=
              planWindows_go_head_fst n _ ed w ws hrec
            have htail := ih (min (cs + 1000) ed + 1) ed
            rw [hrec] at htail
            simp only [List.tail_cons, List.zip_cons_cons, List.all_cons,
              Bool.and_eq_true, decide_eq_true_eq]
            refine ⟨⟨?_, ?_⟩, ?_⟩
            · omega
            · omega
            · simpa using htail
      · simp [planWindows_go, hcs]

theorem planWindows_adjacent (s e : Int) :
    (((planWindows s e).zip (planWindows s e).tail).all
      fun ab => decide (ab.2.1 = ab.1.2 + 1) && decide (ab.1.1 + 1 ≤ ab.2.1)) = true :=
  planWindows_go_adjacent _ s e

theorem planWindows_go_last (fuel : Nat) :
    ∀ (cs ed : Int), (ed - cs).toNat ≤ fuel → cs < ed →
      (planWindows_go fuel cs ed).getLast?.map Prod.snd
        = some (if (ed - cs) % 1001 = 0 then ed - 1 else ed) := by
  induction fuel with
  | zero => intro cs ed hf h; omega
  | succ n ih =>
      intro cs ed hf h
      simp only [planWindows_go, if_pos h]
      by_cases hnear : ed ≤ cs + 1000
      · have hmin : min (cs + 1000) ed = ed := by omega
        rw [hmin]
        rw [planWindows_go_nil n (ed + 1) ed (by omega)]
        have hmod : ¬ (ed - cs) % 1001 = 0 := by omega
        simp [hmod]
      · have hmin : min (cs + 1000) ed = cs + 1000 := by omega
        rw [hmin]
        have h1 : (cs + 1000 + 1 : Int) = cs + 1001 := by ring
        rw [h1]
        by_cases hmore : cs + 1001 < ed
        · have hrec := ih (cs + 1001) ed (by omega) hmore
          match hl : planWindows_go n (cs + 1001) ed with
          | [] =>
              exfalso
              have hn : n = n - 1 + 1 := by omega
              rw [hn] at hl
              exact planWindows_go_ne_nil (n - 1) (cs + 1001) ed hmore hl
          | w :: ws =>
              rw [hl] at hrec
              rw [List.getLast?_cons_cons, hrec]
              have hmod : ((ed - cs) % 1001 = 0) ↔ ((ed - (cs + 1001)) % 1001 = 0) := by
                omega
              by_cases hc : (ed - cs) % 1001 = 0
              · rw [if_pos (hmod.mp hc), if_pos hc]
              · rw [if_neg (fun hx => hc (hmod.mpr hx)), if_neg hc]
        · have hed : ed - 1 = cs + 1000 := by omega
          rw [planWindows_go_nil n (cs + 1001) ed (by omega)]
          have hmod : (ed - cs) % 1001 = 0 := by omega
          rw [if_pos hmod]
          simp [hed]

theorem planWindows_last (s e : Int) (h : s < e) :
    (planWindows s e).getLast?.map Prod.snd
      = some (if (e - s) % 1001 = 0 then e - 1 else e) :=
  planWindows_go_last _ s e (by omega) h

/-! ## Lemmas about the chunk fetcher -/

theorem chunk_of_error (provider : Provider) (symbol : String) (s e : Int)
    (msg : String) (h : provider (mkStockBarsRequest symbol s e) = Except.error msg) :
    fetch_historical_data_chunk provider symbol s e
      = (none, [Event.request (mkStockBarsRequest symbol s e),
                Event.print ("Error fetching data chunk for " ++ symbol ++ ": " ++ msg)]) := by
  simp [fetch_historical_data_chunk, h]

theorem chunk_of_ok_nil (provider : Provider) (symbol : String) (s e : Int)
    (h : provider (mkStockBarsRequest symbol s e) = Except.ok []) :
    fetch_historical_data_chunk provider symbol s e
      = (none, [Event.request (mkStockBarsRequest symbol s e)]) := by
  simp [fetch_historical_data_chunk, h]

theorem chunk_fst_ne_some_nil (provider : Provider) (symbol : String) (s e : Int) :
    (fetch_historical_data_chunk provider symbol s e).1 ≠ some [] := by
  rcases h : provider (mkStockBarsRequest symbol s e) with msg | rows
  · simp [fetch_historical_data_chunk, h]
  · by_cases hr : rows = []
    · simp [fetch_historical_data_chunk, h, hr]
    · simp [fetch_historical_data_chunk, h, hr, List.map_eq_nil_iff]

theorem requestsOf_chunk (provider : Provider) (symbol : String) (s e : Int) :
    requestsOf (fetch_historical_data_chunk provider symbol s e).2
      = [mkStockBarsRequest symbol s e] := by
  rcases h : provider (mkStockBarsRequest symbol s e) with msg | rows
  · simp [fetch_historical_data_chunk, h, requestsOf]
  · by_cases hr : rows = []
    · simp [fetch_historical_data_chunk, h, hr, requestsOf]
    · simp [fetch_historical_data_chunk, h, hr, requestsOf]

theorem countSleeps_chunk (provider : Provider) (symbol : String) (s e : Int) :
    countSleeps (fetch_historical_data_chunk provider symbol s e).2 = 0 := by
  rcases h : provider (mkStockBarsRequest symbol s e) with msg | rows
  · simp [fetch_historical_data_chunk, h, countSleeps]
  · by_cases hr : rows = []
    · simp [fetch_historical_data_chunk, h, hr, countSleeps]
    · simp [fetch_historical_data_chunk, h, hr, countSleeps]

theorem writesOf_chunk (provider : Provider) (symbol : String) (s e : Int) :
    writesOf (fetch_historical_data_chunk provider symbol s e).2 = [] := by
  rcases h : provider (mkStockBarsRequest symbol s e) with msg | rows
  · simp [fetch_historical_data_chunk, h, writesOf]
  · by_cases hr : rows = []
    · simp [fetch_historical_data_chunk, h, hr, writesOf]
    · simp [fetch_historical_data_chunk, h, hr, writesOf]

theorem makedirsOf_chunk (provider : Provider) (symbol : String) (s e : Int) :
    makedirsOf (fetch_historical_data_chunk provider symbol s e).2 = [] := by
  rcases h : provider (mkStockBarsRequest symbol s e) with msg | rows
  · simp [fetch_historical_data_chunk, h, makedirsOf]
  · by_cases hr : rows = []
    · simp [fetch_historical_data_chunk, h, hr, makedirsOf]
    · simp [fetch_historical_data_chunk, h, hr, makedirsOf]

/-! ## Lemmas about `fetch_historical_data` -/

/-- The chunk kept by one iteration of the loop: the fetched value unless
it is `None` or empty. -/
def keptChunk (provider : Provider) (symbol : String) (w : Int × Int) :
    Option (List Bar) :=
  match (fetch_historical_data_chunk provider symbol w.1 w.2).1 with
  | some chunk_df => if chunk_df.isEmpty then none else some chunk_df
  | none => none

theorem keptChunk_eq (provider : Provider) (symbol : String) (w : Int × Int) :
    keptChunk provider symbol w = (fetch_historical_data_chunk provider symbol w.1 w.2).1 := by
  rcases h : (fetch_historical_data_chunk provider symbol w.1 w.2).1 with _ | chunk_df
  · simp [keptChunk, h]
  · have hne : chunk_df ≠ [] := by
      intro hc
      rw [hc] at h
      exact chunk_fst_ne_some_nil provider symbol w.1 w.2 h
    simp [keptChunk, h, List.isEmpty_iff, hne]

theorem fetch_go_data (provider : Provider) (symbol : String) (fuel : Nat) :
    ∀ (cs ed : Int),
      (fetch_historical_data_go provider symbol fuel cs ed).1
        = (planWindows_go fuel cs ed).filterMap (keptChunk provider symbol) := by
  induction fuel with
  | zero => intro cs ed; simp [fetch_historical_data_go, planWindows_go]
  | succ n ih =>
      intro cs ed
      by_cases hcs : cs < ed
      · simp only [fetch_historical_data_go, planWindows_go, if_pos hcs,
          List.filterMap_cons]
        rw [← ih (min (cs + 1000) ed + 1) ed]
        rcases h : (fetch_historical_data_chunk provider symbol cs (min (cs + 1000) ed)).1
          with _ | chunk_df
        · simp [keptChunk, h]
        · by_cases hc : chunk_df.isEmpty
          · simp [keptChunk, h, hc]
          · simp [keptChunk, h, hc]
      · simp [fetch_historical_data_go, planWindows_go, hcs]

theorem fetch_go_trace (provider : Provider) (symbol : String) (fuel : Nat) :
    ∀ (cs ed : Int),
      (fetch_historical_data_go provider symbol fuel cs ed).2
        = ((planWindows_go fuel cs ed).map fun w =>
            (fetch_historical_data_chunk provider symbol w.1 w.2).2
              ++ [Event.sleep 1]).flatten := by
  induction fuel with
  | zero => intro cs ed; simp [fetch_historical_data_go, planWindows_go]
  | succ n ih =>
      intro cs ed
      by_cases hcs : cs < ed
      · simp only [fetch_historical_data_go, planWindows_go, if_pos hcs,
          List.map_cons, List.flatten_cons]
        rw [← ih (min (cs + 1000) ed + 1) ed]
      · simp [fetch_historical_data_go, planWindows_go, hcs]

theorem fetch_trace (provider : Provider) (symbol : String) (s e : Int) :
    (fetch_historical_data provider symbol s e).2
      = ((planWindows s e).map fun w =>
          (fetch_historical_data_chunk provider symbol w.1 w.2).2
            ++ [Event.sleep 1]).flatten :=
  fetch_go_trace provider symbol _ s e

theorem fetch_data_eq (provider : Provider) (symbol : String) (s e : Int) :
    (fetch_historical_data provider symbol s e).1
      = (if (((planWindows s e).map fun w =>
            (fetch_historical_data_chunk provider symbol w.1 w.2).1).filterMap id).isEmpty
         then none
         else some (((planWindows s e).map fun w =>
            (fetch_historical_data_chunk provider symbol w.1 w.2).1).filterMap id).flatten) := by
  have hk : (planWindows s e).filterMap (keptChunk provider symbol)
      = ((planWindows s e).map fun w =>
          (fetch_historical_data_chunk provider symbol w.1 w.2).1).filterMap id := by
    rw [List.filterMap_map]
    apply List.filterMap_congr
    intro w _
    simpa using keptChunk_eq provider symbol w
  simp only [fetch_historical_data, planWindows] at *
  rw [fetch_go_data provider symbol _ s e, hk]

theorem filterMap_id_isEmpty_eq_all_isNone {α : Type} (l : List (Option α)) :
    (l.filterMap id).isEmpty = l.all Option.isNone := by
  induction l with
  | nil => rfl
  | cons o t ih =>
      cases o with
      | none => simpa [List.filterMap_cons] using ih
      | some a => simp [List.filterMap_cons]

theorem fetch_none_iff (provider : Provider) (symbol : String) (s e : Int) :
    (fetch_historical_data provider symbol s e).1 = none
      ↔ (((planWindows s e).map fun w =>
          (fetch_historical_data_chunk provider symbol w.1 w.2).1).all
            Option.isNone) = true := by
  rw [fetch_data_eq, ← filterMap_id_isEmpty_eq_all_isNone]
  by_cases hk : (((planWindows s e).map fun w =>
      (fetch_historical_data_chunk provider symbol w.1 w.2).1).filterMap id).isEmpty
  · simp [hk]
  · simp [hk]

theorem fetch_fst_ne_some_nil (provider : Provider) (symbol : String) (s e : Int) :
    (fetch_historical_data provider symbol s e).1 ≠ some [] := by
  rw [fetch_data_eq]
  by_cases hk : (((planWindows s e).map fun w =>
      (fetch_historical_data_chunk provider symbol w.1 w.2).1).filterMap id).isEmpty
  · rw [if_pos hk]
    exact fun h => Option.noConfusion h
  · rw [if_neg (by simpa using hk)]
    intro h
    simp only [Option.some.injEq] at h
    rw [List.flatten_eq_nil_iff] at h
    rcases hl : ((planWindows s e).map fun w =>
        (fetch_historical_data_chunk provider symbol w.1 w.2).1).filterMap id with _ | ⟨l, ls⟩
    · rw [hl] at hk; simp at hk
    · have hmem : l ∈ ((planWindows s e).map fun w =>
          (fetch_historical_data_chunk provider symbol w.1 w.2).1).filterMap id := by
        rw [hl]; exact List.mem_cons_self l ls
      rw [List.mem_filterMap] at hmem
      rcases hmem with ⟨o, ho, hoeq⟩
      rw [List.mem_map] at ho
      rcases ho with ⟨w, _, hw⟩
      have hlnil : l = [] := by
        rw [hl] at h
        exact h l (List.mem_cons_self l ls)
      have : (fetch_historical_data_chunk provider symbol w.1 w.2).1 = some [] := by
        rw [hw]
        simp only [id] at hoeq
        rw [hoeq, hlnil]
      exact chunk_fst_ne_some_nil provider symbol w.1 w.2 this

theorem fetch_degenerate (provider : Provider) (symbol : String) (s e : Int)
    (h : e ≤ s) : (fetch_historical_data provider symbol s e).1 = none := by
  have h0 : (e - s).toNat = 0 := by omega
  simp [fetch_historical_data, h0, fetch_historical_data_go]

theorem countSleeps_append (t₁ t₂ : List Event) :
    countSleeps (t₁ ++ t₂) = countSleeps t₁ + countSleeps t₂ := by
  simp [countSleeps, List.filter_append]

theorem countSleeps_fetch (provider : Provider) (symbol : String) (s e : Int) :
    countSleeps (fetch_historical_data provider symbol s e).2
      = (planWindows s e).length := by
  rw [fetch_trace]
  induction planWindows s e with
  | nil => simp [countSleeps]
  | cons w ws ih =>
      simp only [List.map_cons, List.flatten_cons, List.length_cons]
      rw [countSleeps_append, countSleeps_append, ih, countSleeps_chunk]
      simp [countSleeps]
      omega

theorem writesOf_append (t₁ t₂ : List Event) :
    writesOf (t₁ ++ t₂) = writesOf t₁ ++ writesOf t₂ := by
  simp [writesOf, List.filterMap_append]

theorem writesOf_nil : writesOf [] = [] := rfl

theorem writesOf_cons_makedirs (d : String) (t : List Event) :
    writesOf (Event.makedirs d :: t) = writesOf t := rfl

theorem writesOf_cons_toCsv (p : String) (r : List Bar) (t : List Event) :
    writesOf (Event.toCsv p r :: t) = (p, r) :: writesOf t := rfl

theorem writesOf_cons_print (m : String) (t : List Event) :
    writesOf (Event.print m :: t) = writesOf t := rfl

theorem writesOf_cons_sleep (n : Nat) (t : List Event) :
    writesOf (Event.sleep n :: t) = writesOf t := rfl

theorem makedirsOf_nil : makedirsOf [] = [] := rfl

theorem makedirsOf_cons_makedirs (d : String) (t : List Event) :
    makedirsOf (Event.makedirs d :: t) = d :: makedirsOf t := rfl

theorem makedirsOf_cons_toCsv (p : String) (r : List Bar) (t : List Event) :
    makedirsOf (Event.toCsv p r :: t) = makedirsOf t := rfl

theorem makedirsOf_cons_print (m : String) (t : List Event) :
    makedirsOf (Event.print m :: t) = makedirsOf t := rfl

theorem makedirsOf_cons_sleep (n : Nat) (t : List Event) :
    makedirsOf (Event.sleep n :: t) = makedirsOf t := rfl

theorem makedirsOf_append (t₁ t₂ : List Event) :
    makedirsOf (t₁ ++ t₂) = makedirsOf t₁ ++ makedirsOf t₂ := by
  simp [makedirsOf, List.filterMap_append]

theorem requestsOf_append (t₁ t₂ : List Event) :
    requestsOf (t₁ ++ t₂) = requestsOf t₁ ++ requestsOf t₂ := by
  simp [requestsOf, List.filterMap_append]

theorem writesOf_fetch (provider : Provider) (symbol : String) (s e : Int) :
    writesOf (fetch_historical_data provider symbol s e).2 = [] := by
  rw [fetch_trace]
  induction planWindows s e with
  | nil => simp [writesOf]
  | cons w ws ih =>
      simp only [List.map_cons, List.flatten_cons]
      rw [writesOf_append, writesOf_append, ih, writesOf_chunk]
      simp [writesOf]

theorem makedirsOf_fetch (provider : Provider) (symbol : String) (s e : Int) :
    makedirsOf (fetch_historical_data provider symbol s e).2 = [] := by
  rw [fetch_trace]
  induction planWindows s e with
  | nil => simp [makedirsOf]
  | cons w ws ih =>
      simp only [List.map_cons, List.flatten_cons]
      rw [makedirsOf_append, makedirsOf_append, ih, makedirsOf_chunk]
      simp [makedirsOf]

/-! ## Lemmas about sorting -/

instance : IsTotal Bar (fun a b => a.date ≤ b.date) :=
  ⟨fun a b => Int.le_total a.date b.date⟩

instance : IsTrans Bar (fun a b => a.date ≤ b.date) :=
  ⟨fun _ _ _ hab hbc => Int.le_trans hab hbc⟩

theorem sortedByDateB_of_pairwise :
    ∀ (l : List Bar), l.Pairwise (fun a b => a.date ≤ b.date) →
      sortedByDateB l = true := by
  intro l
  induction l with
  | nil => intro _; rfl
  | cons a t ih =>
      intro h
      rw [List.pairwise_cons] at h
      cases t with
      | nil => rfl
      | cons b t' =>
          simp only [sortedByDateB, Bool.and_eq_true, decide_eq_true_eq]
          exact ⟨h.1 b (List.mem_cons_self b t'), ih h.2⟩

theorem sortedByDateB_sort_values (df : List Bar) :
    sortedByDateB (sort_values_Date df) = true :=
  sortedByDateB_of_pairwise _
    (List.sorted_insertionSort (fun a b : Bar => a.date ≤ b.date) df)

theorem colsOkB_true (b : Bar) : colsOkB b = true := by
  simp [colsOkB, bar_cells]

/-! ## Lemmas about per-symbol processing -/

theorem processSymbol_okFs (provider : Provider) (clock : Clock) (idx : Nat)
    (symbol : String) : (processSymbol provider okFs clock idx symbol).2 = none := by
  simp only [processSymbol, okFs]
  rcases h2 : (fetch_historical_data provider symbol (clock idx - 5 * 365) (clock idx)).1
    with _ | df
  · rfl
  · by_cases hdf : df.isEmpty <;> simp [hdf]

theorem processSymbol_writes_all (provider : Provider) (fs : Fs) (clock : Clock)
    (idx : Nat) (symbol : String) :
    ((writesOf (processSymbol provider fs clock idx symbol).1).all fun w =>
      decide (w.1 = output_file_name
          (output_dir_name (clock idx - 5 * 365) (clock idx)) symbol)
        && sortedByDateB w.2 && w.2.all colsOkB) = true := by
  have hw : writesOf (fetch_historical_data provider symbol
      (clock idx - 5 * 365) (clock idx)).2 = [] :=
    writesOf_fetch provider symbol _ _
  simp only [processSymbol]
  rcases h1 : fs.makedirs (output_dir_name (clock idx - 5 * 365) (clock idx)) with e | u
  · rfl
  · rcases h2 : (fetch_historical_data provider symbol (clock idx - 5 * 365) (clock idx)).1
      with _ | df
    · simp only [writesOf_cons_makedirs, writesOf_append, hw, writesOf_cons_sleep,
        writesOf_nil]
      rfl
    · by_cases hdf : df.isEmpty
      · simp only [hdf, if_true]
        simp only [writesOf_cons_makedirs, writesOf_append, hw, writesOf_cons_sleep,
          writesOf_nil]
        rfl
      · have hsort : sortedByDateB (sort_values_Date df) = true :=
          sortedByDateB_sort_values df
        have hcols : (sort_values_Date df).all colsOkB = true := by
          rw [List.all_eq_true]
          intro b _
          exact colsOkB_true b
        simp only [hdf, Bool.false_eq_true, if_false]
        rcases h3 : fs.to_csv (output_file_name
            (output_dir_name (clock idx - 5 * 365) (clock idx)) symbol)
            (sort_values_Date df) with e | u
        · simp only [writesOf_cons_makedirs, writesOf_append, hw, writesOf_cons_toCsv,
            writesOf_nil, List.nil_append, List.all_cons, List.all_nil, Bool.and_true,
            hsort, hcols, decide_eq_true_eq]
        · simp only [writesOf_cons_makedirs, writesOf_append, hw, writesOf_cons_toCsv,
            writesOf_cons_print, writesOf_cons_sleep, writesOf_nil, List.nil_append,
            List.all_cons, List.all_nil, Bool.and_true, hsort, hcols, decide_eq_true_eq]

theorem processSymbol_makedirs_all (provider : Provider) (fs : Fs) (clock : Clock)
    (idx : Nat) (symbol : String) :
    ((makedirsOf (processSymbol provider fs clock idx symbol).1).all fun d =>
      decide (d = output_dir_name (clock idx - 5 * 365) (clock idx))) = true := by
  have hm : makedirsOf (fetch_historical_data provider symbol
      (clock idx - 5 * 365) (clock idx)).2 = [] :=
    makedirsOf_fetch provider symbol _ _
  simp only [processSymbol]
  rcases h1 : fs.makedirs (output_dir_name (clock idx - 5 * 365) (clock idx)) with e | u
  · simp [makedirsOf_cons_makedirs, makedirsOf_nil]
  · rcases h2 : (fetch_historical_data provider symbol (clock idx - 5 * 365) (clock idx)).1
      with _ | df
    · simp only [makedirsOf_cons_makedirs, makedirsOf_append, hm, makedirsOf_cons_sleep,
        makedirsOf_nil]
      simp
    · by_cases hdf : df.isEmpty
      · simp only [hdf, if_true]
        simp only [makedirsOf_cons_makedirs, makedirsOf_append, hm, makedirsOf_cons_sleep,
          makedirsOf_nil]
        simp
      · simp only [hdf, Bool.false_eq_true, if_false]
        rcases h3 : fs.to_csv (output_file_name
            (output_dir_name (clock idx - 5 * 365) (clock idx)) symbol)
            (sort_values_Date df) with e | u
        · simp only [makedirsOf_cons_makedirs, makedirsOf_append, hm,
            makedirsOf_cons_toCsv, makedirsOf_nil]
          simp
        · simp only [makedirsOf_cons_makedirs, makedirsOf_append, hm,
            makedirsOf_cons_toCsv, makedirsOf_cons_print, makedirsOf_cons_sleep,
            makedirsOf_nil]
          simp

theorem processSymbol_last_sleep (provider : Provider) (fs : Fs) (clock : Clock)
    (idx : Nat) (symbol : String)
    (h : (processSymbol provider fs clock idx symbol).2 = none) :
    ((processSymbol provider fs clock idx symbol).1).getLast?
      = some (Event.sleep 1) := by
  simp only [processSymbol] at h ⊢
  rcases h1 : fs.makedirs (output_dir_name (clock idx - 5 * 365) (clock idx)) with e | u
  · rw [h1] at h; simp at h
  · rw [h1] at h
    rcases h2 : (fetch_historical_data provider symbol (clock idx - 5 * 365) (clock idx)).1
      with _ | df
    · rw [List.getLast?_append_cons]
      rfl
    · rw [h2] at h
      by_cases hdf : df.isEmpty
      · simp only [hdf, if_true]
        rw [List.getLast?_append_cons]
        rfl
      · simp only [hdf, Bool.false_eq_true, if_false] at h ⊢
        rcases h3 : fs.to_csv (output_file_name
            (output_dir_name (clock idx - 5 * 365) (clock idx)) symbol)
            (sort_values_Date df) with e | u
        · rw [h3] at h
          simp at h
        · rw [List.getLast?_append_cons]
          rfl

/-! ## Lemmas about the batch scheduler -/

theorem processSymbols_okFs (provider : Provider) (clock : Clock) :
    ∀ (idx : Nat) (symbols : List String),
      (processSymbols provider okFs clock idx symbols).2 = none := by
  intro idx symbols
  induction symbols generalizing idx with
  | nil => rfl
  | cons s rest ih =>
      simp only [processSymbols]
      rcases hps : processSymbol provider okFs clock idx s with ⟨evs, r⟩
      have : r = none := by
        have := processSymbol_okFs provider clock idx s
        rw [hps] at this
        exact this
      subst this
      simp [ih (idx + 1)]

theorem processSymbols_writes_all (provider : Provider) (fs : Fs) (clock : Clock)
    (P : String × List Bar → Bool)
    (hP : ∀ (idx : Nat) (symbol : String),
      ((writesOf (processSymbol provider fs clock idx symbol).1).all P) = true) :
    ∀ (idx : Nat) (symbols : List String),
      ((writesOf (processSymbols provider fs clock idx symbols).1).all P) = true := by
  intro idx symbols
  induction symbols generalizing idx with
  | nil => rfl
  | cons s rest ih =>
      simp only [processSymbols]
      rcases hps : processSymbol provider fs clock idx s with ⟨evs, r⟩
      have hevs : (writesOf evs).all P = true := by
        have := hP idx s
        rw [hps] at this
        exact this
      cases r with
      | some e => exact hevs
      | none =>
          simp only [writesOf_append, List.all_append, Bool.and_eq_true]
          exact ⟨hevs, ih (idx + 1)⟩

theorem processSymbols_makedirs_all (provider : Provider) (fs : Fs) (clock : Clock)
    (P : String → Bool)
    (hP : ∀ (idx : Nat) (symbol : String),
      ((makedirsOf (processSymbol provider fs clock idx symbol).1).all P) = true) :
    ∀ (idx : Nat) (symbols : List String),
      ((makedirsOf (processSymbols provider fs clock idx symbols).1).all P) = true := by
  intro idx symbols
  induction symbols generalizing idx with
  | nil => rfl
  | cons s rest ih =>
      simp only [processSymbols]
      rcases hps : processSymbol provider fs clock idx s with ⟨evs, r⟩
      have hevs : (makedirsOf evs).all P = true := by
        have := hP idx s
        rw [hps] at this
        exact this
      cases r with
      | some e => exact hevs
      | none =>
          simp only [makedirsOf_append, List.all_append, Bool.and_eq_true]
          exact ⟨hevs, ih (idx + 1)⟩

theorem process_batches_go_okFs (provider : Provider) (clock : Clock)
    (total batch_size : Nat) :
    ∀ (fuel i : Nat) (remaining : List String),
      (process_batches_go provider okFs clock total batch_size fuel i remaining).2
        = none := by
  intro fuel
  induction fuel with
  | zero =>
      intro i remaining
      cases remaining with
      | nil => rfl
      | cons s rest => rfl
  | succ n ih =>
      intro i remaining
      cases remaining with
      | nil => rfl
      | cons s rest =>
          simp only [process_batches_go]
          rcases hps : processSymbols provider okFs clock i ((s :: rest).take batch_size)
            with ⟨evs, r⟩
          have : r = none := by
            have := processSymbols_okFs provider clock i ((s :: rest).take batch_size)
            rw [hps] at this
            exact this
          subst this
          simp [ih (i + batch_size)]

theorem process_batches_go_writes_all (provider : Provider) (fs : Fs) (clock : Clock)
    (total batch_size : Nat) (P : String × List Bar → Bool)
    (hP : ∀ (idx : Nat) (symbol : String),
      ((writesOf (processSymbol provider fs clock idx symbol).1).all P) = true) :
    ∀ (fuel i : Nat) (remaining : List String),
      ((writesOf (process_batches_go provider fs clock total batch_size
        fuel i remaining).1).all P) = true := by
  intro fuel
  induction fuel with
  | zero =>
      intro i remaining
      cases remaining with
      | nil => rfl
      | cons s rest => rfl
  | succ n ih =>
      intro i remaining
      cases remaining with
      | nil => rfl
      | cons s rest =>
          simp only [process_batches_go]
          rcases hps : processSymbols provider fs clock i ((s :: rest).take batch_size)
            with ⟨evs, r⟩
          have hevs : (writesOf evs).all P = true := by
            have := processSymbols_writes_all provider fs clock P hP i
              ((s :: rest).take batch_size)
            rw [hps] at this
            exact this
          cases r with
          | some e => simpa [writesOf_cons_print] using hevs
          | none =>
              simp only [writesOf_cons_print, writesOf_append, List.all_append,
                Bool.and_eq_true]
              exact ⟨hevs, ih (i + batch_size) ((s :: rest).drop batch_size)⟩

theorem process_batches_go_makedirs_all (provider : Provider) (fs : Fs) (clock : Clock)
    (total batch_size : Nat) (P : String → Bool)
    (hP : ∀ (idx : Nat) (symbol : String),
      ((makedirsOf (processSymbol provider fs clock idx symbol).1).all P) = true) :
    ∀ (fuel i : Nat) (remaining : List String),
      ((makedirsOf (process_batches_go provider fs clock total batch_size
        fuel i remaining).1).all P) = true := by
  intro fuel
  induction fuel with
  | zero =>
      intro i remaining
      cases remaining with
      | nil => rfl
      | cons s rest => rfl
  | succ n ih =>
      intro i remaining
      cases remaining with
      | nil => rfl
      | cons s rest =>
          simp only [process_batches_go]
          rcases hps : processSymbols provider fs clock i ((s :: rest).take batch_size)
            with ⟨evs, r⟩
          have hevs : (makedirsOf evs).all P = true := by
            have := processSymbols_makedirs_all provider fs clock P hP i
              ((s :: rest).take batch_size)
            rw [hps] at this
            exact this
          cases r with
          | some e => simpa [makedirsOf_cons_print] using hevs
          | none =>
              simp only [makedirsOf_cons_print, makedirsOf_append, List.all_append,
                Bool.and_eq_true]
              exact ⟨hevs, ih (i + batch_size) ((s :: rest).drop batch_size)⟩

/-! ## Lemmas about filesystem failure propagation -/

theorem processSymbol_mkdirFail (provider : Provider) (clock : Clock) (msg : String)
    (idx : Nat) (symbol : String) :
    processSymbol provider (mkdirFailFs msg) clock idx symbol
      = ([Event.makedirs (output_dir_name (clock idx - 5 * 365) (clock idx))],
         some msg) := by
  simp [processSymbol, mkdirFailFs]

theorem process_mkdirFail (provider : Provider) (clock : Clock) (msg : String)
    (symbol : String) (rest : List String) (batch_size : Nat) (hbs : 1 ≤ batch_size) :
    process_symbols_in_batches provider (mkdirFailFs msg) clock
        (symbol :: rest) batch_size
      = ([Event.print ("Processing batch 1 of "
            ++ toString (((symbol :: rest).length + batch_size - 1) / batch_size)),
          Event.makedirs (output_dir_name (clock 0 - 5 * 365) (clock 0))],
         some msg) := by
  obtain ⟨k, rfl⟩ : ∃ k, batch_size = k + 1 := ⟨batch_size - 1, by omega⟩
  simp only [process_symbols_in_batches, List.length_cons, process_batches_go,
    List.take_succ_cons, processSymbols, processSymbol_mkdirFail]
  simp [Nat.zero_div]
  congr 1

theorem processSymbol_csvFail (provider : Provider) (clock : Clock) (msg : String)
    (idx : Nat) (symbol : String) (df : List Bar)
    (h : (fetch_historical_data provider symbol
        (clock idx - 5 * 365) (clock idx)).1 = some df)
    (hdf : df ≠ []) :
    (processSymbol provider (csvFailFs msg) clock idx symbol).2 = some msg := by
  have hdfe : df.isEmpty = false := by
    cases df with
    | nil => exact absurd rfl hdf
    | cons b t => rfl
  simp only [processSymbol, csvFailFs]
  rw [h]
  simp [hdfe]

/-! ## Concrete scenarios used by counterexamples and witnesses -/

/-- A provider row used by the C6 counterexample (timestamp day 5). -/
def c6_raw : RawBar :=
  { timestamp := 5, symbol := "TST", «open» := 1, high := 2, low := 0, close := 1,
    volume := 10, trade_count := 3, vwap := 1 }

/-- A provider that answers the first window (start day 0) with two rows
carrying the same timestamp, and every other request with zero rows. -/
def c6_provider : Provider := fun req =>
  if req.start = some (0 : Int) then Except.ok [c6_raw, c6_raw] else Except.ok []

/-- The normalized row corresponding to `c6_raw`. -/
def c6_bar : Bar :=
  { date := 5, symbol := "TST", «open» := 1, high := 2, low := 0, close := 1,
    volume := 10 }

/-- A provider row used by the C7 counterexample (timestamp day 3). -/
def c7_raw : RawBar :=
  { timestamp := 3, symbol := "X", «open» := 1, high := 2, low := 0, close := 1,
    volume := 10, trade_count := 3, vwap := 1 }

/-- A provider that answers every request with one row. -/
def c7_provider : Provider := fun _ => Except.ok [c7_raw]

/-- A clock that advances one calendar day per processed symbol: a run that
crosses a day boundary between two symbols. -/
def c7_clock : Clock := fun i => 1825 + (i : Int)

/-! ## Claims -/

/-- C1, counterexample: at `start = day 0`, `end = day 1001` (a span that is
a multiple of 1001 days) the loop generates the single window `[0, 1000]`,
whose end is NOT `end`: the windows do not cover `[start, end]` up to `end`,
refuting the claim as stated. -/
theorem c1_counterexample :
    (0 : Int) < 1001 ∧ planWindows 0 1001 = [(0, 1000)]
      ∧ (planWindows 0 1001).getLast?.map Prod.snd ≠ some 1001 := by
  decide

/-- C1, amended: for every `start < end`, the first window starts at
`start`, every window has non-negative span of at most 1000 days, each
subsequent window begins exactly one day after the previous window's end
(no gap, no overlap), and the last window ends at `end` — except when
`end - start` is a positive multiple of 1001 days, in which case the last
window ends one day before `end`. -/
theorem c1_amended (s e : Int) (h : s < e) :
    (planWindows s e).head?.map Prod.fst = some s
    ∧ ((planWindows s e).all fun w =>
        decide (w.1 ≤ w.2) && decide (w.2 - w.1 ≤ 1000)) = true
    ∧ (((planWindows s e).zip (planWindows s e).tail).all fun ab =>
        decide (ab.2.1 = ab.1.2 + 1)) = true
    ∧ (planWindows s e).getLast?.map Prod.snd
        = some (if (e - s) % 1001 = 0 then e - 1 else e) := by
  refine ⟨planWindows_head_fst s e h, planWindows_spans s e, ?_, planWindows_last s e h⟩
  have hadj := planWindows_adjacent s e
  rw [List.all_eq_true] at hadj ⊢
  intro ab hab
  have h2 := hadj ab hab
  rw [Bool.and_eq_true] at h2
  exact h2.1

/-- C1, witness for the amended claim at `start = day 0`, `end = day 1825`
(the 5-year range the batch scheduler always uses): the last window ends at
`end`. -/
theorem c1_amended_witness :
    (planWindows 0 1825).getLast?.map Prod.snd = some 1825 :=
  ((c1_amended 0 1825 (by norm_num)).2.2.2).trans (by decide)

/-- C2: `fetch_historical_data_chunk` issues exactly one provider request
per call, and that request carries the symbol, a timeframe of 1 calendar
day and a row limit of 1000, and the window start as its lower bound — but
NOT the window end: the source passes the end under the keyword `end_date`,
which is not a field of the provider's request type, so the request's `end`
bound is unset (`none`) rather than the window's end instant. -/
theorem c2_theorem :
    (∀ (provider : Provider) (symbol : String) (s e : Int),
      requestsOf (fetch_historical_data_chunk provider symbol s e).2
        = [mkStockBarsRequest symbol s e])
    ∧ (∀ (symbol : String) (s e : Int),
        (mkStockBarsRequest symbol s e).symbol_or_symbols = symbol
        ∧ (mkStockBarsRequest symbol s e).timeframe
            = { amount := 1, unit := TimeFrameUnit.Day }
        ∧ (mkStockBarsRequest symbol s e).limit = some 1000
        ∧ (mkStockBarsRequest symbol s e).start = some s
        ∧ (mkStockBarsRequest symbol s e).«end» = none) :=
  ⟨requestsOf_chunk, fun _ _ _ => ⟨rfl, rfl, rfl, rfl, rfl⟩⟩

/-- C3: if the provider call raises (any failure inside the `try` block),
`fetch_historical_data_chunk` catches it, prints the diagnostic
`Error fetching data chunk for {symbol}: {error}`, and returns `None`; no
exception reaches the caller (the function's result is this ordinary value). -/
theorem c3_theorem (provider : Provider) (symbol : String) (s e : Int) (msg : String)
    (h : provider (mkStockBarsRequest symbol s e) = Except.error msg) :
    fetch_historical_data_chunk provider symbol s e
      = (none, [Event.request (mkStockBarsRequest symbol s e),
          Event.print ("Error fetching data chunk for " ++ symbol ++ ": " ++ msg)]) :=
  chunk_of_error provider symbol s e msg h

/-- C3, witness: a concrete failing provider. -/
theorem c3_witness :
    fetch_historical_data_chunk (fun _ => Except.error "connection reset") "AAPL" 0 100
      = (none, [Event.request (mkStockBarsRequest "AAPL" 0 100),
          Event.print "Error fetching data chunk for AAPL: connection reset"]) :=
  c3_theorem (fun _ => Except.error "connection reset") "AAPL" 0 100
    "connection reset" rfl

/-- C4: `fetch_historical_data` returns the concatenation, in window order,
of exactly the non-`None` (hence non-empty) chunk results; it returns `None`
iff every window's chunk yielded no data; it never returns an empty series;
and the window list is empty iff `end ≤ start` (degenerate case: no windows,
hence `None`). -/
theorem c4_theorem (provider : Provider) (symbol : String) (s e : Int) :
    (fetch_historical_data provider symbol s e).1
      = (if (((planWindows s e).map fun w =>
            (fetch_historical_data_chunk provider symbol w.1 w.2).1).filterMap id).isEmpty
         then none
         else some (((planWindows s e).map fun w =>
            (fetch_historical_data_chunk provider symbol w.1 w.2).1).filterMap id).flatten)
    ∧ ((fetch_historical_data provider symbol s e).1 = none
        ↔ (((planWindows s e).map fun w =>
            (fetch_historical_data_chunk provider symbol w.1 w.2).1).all
              Option.isNone) = true)
    ∧ (fetch_historical_data provider symbol s e).1 ≠ some []
    ∧ (planWindows s e = [] ↔ e ≤ s) :=
  ⟨fetch_data_eq provider symbol s e, fetch_none_iff provider symbol s e,
    fetch_fst_ne_some_nil provider symbol s e, planWindows_nil_iff s e⟩

/-- C4, witness: in the degenerate case `start ≥ end` the result is `None`. -/
theorem c4_witness :
    (fetch_historical_data (fun _ => Except.error "down") "MSFT" 10 5).1 = none :=
  (c4_theorem (fun _ => Except.error "down") "MSFT" 10 5).2.1.mpr (by decide)

/-- C5, counterexample: the value returned for a successful zero-row
response is the very same value (`None`) returned for a failed request —
the two outcomes are not distinguishable by the returned value. -/
theorem c5_counterexample :
    (fetch_historical_data_chunk (fun _ => Except.ok []) "TEST" 0 10).1
      = (fetch_historical_data_chunk
          (fun _ => Except.error "request failed") "TEST" 0 10).1
    ∧ (fetch_historical_data_chunk (fun _ => Except.ok []) "TEST" 0 10).1 = none := by
  decide

/-- C5, amended: on a successful zero-row response the chunk fetcher
returns `None` — the same value as on a failed request; the two outcomes
differ only in the emitted diagnostics (a failure prints an error message,
an empty success prints nothing). -/
theorem c5_amended :
    (∀ (provider : Provider) (symbol : String) (s e : Int),
      provider (mkStockBarsRequest symbol s e) = Except.ok [] →
      fetch_historical_data_chunk provider symbol s e
        = (none, [Event.request (mkStockBarsRequest symbol s e)]))
    ∧ (∀ (provider : Provider) (symbol : String) (s e : Int) (msg : String),
      provider (mkStockBarsRequest symbol s e) = Except.error msg →
      (fetch_historical_data_chunk provider symbol s e).1 = none
      ∧ (fetch_historical_data_chunk provider symbol s e).2
          ≠ [Event.request (mkStockBarsRequest symbol s e)]) := by
  constructor
  · intro provider symbol s e h
    exact chunk_of_ok_nil provider symbol s e h
  · intro provider symbol s e msg h
    rw [chunk_of_error provider symbol s e msg h]
    exact ⟨rfl, by simp⟩

/-- C5, witness for the amended claim: a provider succeeding with zero rows. -/
theorem c5_amended_witness :
    fetch_historical_data_chunk (fun _ => Except.ok []) "GHOST" 0 10
      = (none, [Event.request (mkStockBarsRequest "GHOST" 0 10)]) :=
  c5_amended.1 (fun _ => Except.ok []) "GHOST" 0 10 rfl

/-- C6, counterexample: a run in which the provider returns two rows with
the same date for one window.  The persisted series contains both rows —
duplicate dates survive to the output because the write step only sorts,
it never deduplicates — refuting the "no duplicate dates (deduplicated)"
part of the claim. -/
theorem c6_counterexample :
    writesOf (process_symbols_in_batches c6_provider okFs (fun _ => 1825) ["TST"] 50).1
      = [("market_data_export_0_to_1825/TST_data.csv", [c6_bar, c6_bar])]
    ∧ ((writesOf (process_symbols_in_batches c6_provider okFs
        (fun _ => 1825) ["TST"] 50).1).all fun w =>
          decide (w.2.map Bar.date).Nodup) = false := by
  decide

/-- C6, amended: every series persisted by the write step is sorted
ascending by `Date` before writing, and its rows render to CSV cells in
the fixed column order `Date, Symbol, Open, High, Low, Close, Volume`;
no deduplication is performed, so duplicate dates in the assembled series
persist to the output. -/
theorem c6_amended (provider : Provider) (fs : Fs) (clock : Clock)
    (symbols : List String) (batch_size : Nat) :
    ((writesOf (process_symbols_in_batches provider fs clock
        symbols batch_size).1).all
      fun w => sortedByDateB w.2 && w.2.all colsOkB) = true := by
  simp only [process_symbols_in_batches]
  apply process_batches_go_writes_all
  intro idx symbol
  have h := processSymbol_writes_all provider fs clock idx symbol
  rw [List.all_eq_true] at h ⊢
  intro w hw
  have h2 := h w hw
  rw [Bool.and_eq_true, Bool.and_eq_true] at h2
  rw [Bool.and_eq_true]
  exact ⟨h2.1.2, h2.2⟩

/-- C7, counterexample: a run of two symbols during which the clock crosses
a calendar-day boundary.  The two symbols' files are written into two
different directories (`market_data_export_0_to_1825` and
`market_data_export_1_to_1826`), refuting "one and the same output
directory per run": the directory is derived from a per-symbol evaluation
of "now", not from the run. -/
theorem c7_counterexample :
    (writesOf (process_symbols_in_batches c7_provider okFs c7_clock
        ["AAA", "BBB"] 50).1).map Prod.fst
      = [output_file_name "market_data_export_0_to_1825" "AAA",
         output_file_name "market_data_export_1_to_1826" "BBB"]
    ∧ makedirsOf (process_symbols_in_batches c7_provider okFs c7_clock
        ["AAA", "BBB"] 50).1
      = ["market_data_export_0_to_1825", "market_data_export_1_to_1826"]
    ∧ ("market_data_export_0_to_1825" : String) ≠ "market_data_export_1_to_1826" := by
  decide

/-- C7, amended: each symbol's destination path is the deterministic
function `output_file_name (output_dir_name (now - 5*365) now) symbol` of
the symbol and the date range evaluated freshly for that symbol; when every
per-symbol evaluation of "now" yields the same value, all directories
created during the run coincide (one directory per run holds only in that
case). -/
theorem c7_amended :
    (∀ (provider : Provider) (fs : Fs) (clock : Clock) (idx : Nat) (symbol : String),
      ((writesOf (processSymbol provider fs clock idx symbol).1).all fun w =>
        decide (w.1 = output_file_name
          (output_dir_name (clock idx - 5 * 365) (clock idx)) symbol)) = true)
    ∧ (∀ (provider : Provider) (fs : Fs) (c : Int) (symbols : List String)
        (batch_size : Nat),
      ((makedirsOf (process_symbols_in_batches provider fs
          (fun _ => c) symbols batch_size).1).all fun d =>
        decide (d = output_dir_name (c - 5 * 365) c)) = true) := by
  constructor
  · intro provider fs clock idx symbol
    have h := processSymbol_writes_all provider fs clock idx symbol
    rw [List.all_eq_true] at h ⊢
    intro w hw
    have h2 := h w hw
    rw [Bool.and_eq_true, Bool.and_eq_true] at h2
    exact h2.1.1
  · intro provider fs c symbols batch_size
    simp only [process_symbols_in_batches]
    apply process_batches_go_makedirs_all
    intro idx symbol
    exact processSymbol_makedirs_all provider fs (fun _ => c) idx symbol

/-- C8: (i) the trace of `fetch_historical_data` is exactly, window by
window, the chunk's own events followed by a one-second sleep — the sleep
occurs after every chunk fetch for every provider behaviour, i.e.
regardless of the chunk's outcome; (ii) consequently the number of sleeps
equals the number of windows; (iii) every non-raising execution of the
per-symbol body ends with a one-second sleep, whether or not a file was
written. -/
theorem c8_theorem :
    (∀ (provider : Provider) (symbol : String) (s e : Int),
      (fetch_historical_data provider symbol s e).2
        = ((planWindows s e).map fun w =>
            (fetch_historical_data_chunk provider symbol w.1 w.2).2
              ++ [Event.sleep 1]).flatten)
    ∧ (∀ (provider : Provider) (symbol : String) (s e : Int),
      countSleeps (fetch_historical_data provider symbol s e).2
        = (planWindows s e).length)
    ∧ (∀ (provider : Provider) (fs : Fs) (clock : Clock) (idx : Nat)
        (symbol : String),
      (processSymbol provider fs clock idx symbol).2 = none →
      ((processSymbol provider fs clock idx symbol).1).getLast?
        = some (Event.sleep 1)) :=
  ⟨fetch_trace, countSleeps_fetch, processSymbol_last_sleep⟩

/-- C8, witness: a symbol whose every chunk fails still ends with the
pacing sleep, and no file is written for it. -/
theorem c8_witness :
    ((processSymbol (fun _ => Except.error "timeout") okFs
        (fun _ => (10 : Int)) 0 "TEST").1).getLast? = some (Event.sleep 1) :=
  c8_theorem.2.2 (fun _ => Except.error "timeout") okFs
    (fun _ => (10 : Int)) 0 "TEST" (by decide)

/-- C9: the chunking loop performs at most `end - start` iterations (in
days), each window's start is strictly at least one day after the previous
window's start, and — whenever the filesystem itself does not raise — the
whole batch run finishes normally for every provider behaviour and every
clock, with any positive batch size. -/
theorem c9_theorem :
    (∀ (s e : Int), (planWindows s e).length ≤ (e - s).toNat)
    ∧ (∀ (s e : Int),
      (((planWindows s e).zip (planWindows s e).tail).all fun ab =>
        decide (ab.1.1 + 1 ≤ ab.2.1)) = true)
    ∧ (∀ (provider : Provider) (clock : Clock) (symbols : List String)
        (batch_size : Nat), 1 ≤ batch_size →
      (process_symbols_in_batches provider okFs clock symbols batch_size).2
        = none) := by
  refine ⟨planWindows_length, ?_, ?_⟩
  · intro s e
    have hadj := planWindows_adjacent s e
    rw [List.all_eq_true] at hadj ⊢
    intro ab hab
    have h2 := hadj ab hab
    rw [Bool.and_eq_true] at h2
    exact h2.2
  · intro provider clock symbols batch_size _
    exact process_batches_go_okFs provider clock _ batch_size _ 0 symbols

/-- C9, witness: a run over two symbols with an always-failing provider
completes. -/
theorem c9_witness :
    (process_symbols_in_batches (fun _ => Except.error "http 500") okFs
        (fun _ => (1825 : Int)) ["AAA", "BBB"] 50).2 = none :=
  c9_theorem.2.2 (fun _ => Except.error "http 500") (fun _ => (1825 : Int))
    ["AAA", "BBB"] 50 (by norm_num)

/-- C10: failure containment applies only to chunk fetching.  (i) If
`os.makedirs` raises on the first symbol, the raise propagates out of
`process_symbols_in_batches`, the run halts with no file written and no
provider request ever issued; (ii) if `to_csv` raises while writing a
symbol that has data, the raise propagates out of the per-symbol body;
(iii) by contrast, when the filesystem is healthy, a provider that fails
on every request never halts the run. -/
theorem c10_theorem :
    (∀ (provider : Provider) (clock : Clock) (msg symbol : String)
        (rest : List String) (batch_size : Nat), 1 ≤ batch_size →
      (process_symbols_in_batches provider (mkdirFailFs msg) clock
          (symbol :: rest) batch_size).2 = some msg
      ∧ writesOf (process_symbols_in_batches provider (mkdirFailFs msg) clock
          (symbol :: rest) batch_size).1 = []
      ∧ requestsOf (process_symbols_in_batches provider (mkdirFailFs msg) clock
          (symbol :: rest) batch_size).1 = [])
    ∧ (∀ (provider : Provider) (clock : Clock) (msg : String) (idx : Nat)
        (symbol : String) (df : List Bar),
      (fetch_historical_data provider symbol
          (clock idx - 5 * 365) (clock idx)).1 = some df → df ≠ [] →
      (processSymbol provider (csvFailFs msg) clock idx symbol).2 = some msg)
    ∧ (∀ (clock : Clock) (symbols : List String) (batch_size : Nat) (msg : String),
        1 ≤ batch_size →
      (process_symbols_in_batches (fun _ => Except.error msg) okFs clock
          symbols batch_size).2 = none) := by
  refine ⟨?_, processSymbol_csvFail, ?_⟩
  · intro provider clock msg symbol rest batch_size hbs
    rw [process_mkdirFail provider clock msg symbol rest batch_size hbs]
    exact ⟨rfl, rfl, rfl⟩
  · intro clock symbols batch_size msg _
    exact process_batches_go_okFs (fun _ => Except.error msg) clock _ batch_size
      _ 0 symbols

/-- C10, witness: a concrete run whose directory creation fails with
"disk full" halts with exactly that error. -/
theorem c10_witness :
    (process_symbols_in_batches (fun _ => Except.ok []) (mkdirFailFs "disk full")
        (fun _ => (1825 : Int)) ["AAA", "BBB"] 50).2 = some "disk full" :=
  (c10_theorem.1 (fun _ => Except.ok []) (fun _ => (1825 : Int)) "disk full"
    "AAA" ["BBB"] 50 (by norm_num)).1
